import Mathlib

/-!
Verification of the order lifecycle tracking module
(src/frontend/static/js/dashboard/orders.js).

The module keeps two in-memory collections (pendingOrdersData and
filledOrdersData), a nullable auto-refresh timer handle, and a set of
operations that mutate them: executeOrderById, cancelOrderById,
checkOrdersStatus (the poll merge), updateOrderQuantity together with its
validating event handler, startAutoRefresh and stopAutoRefresh, plus the
weekly-earnings aggregation in updateFilledOrdersTable and
updateWeeklyEarningsSummary, and the formatDate helper.

Shallow embedding conventions:
- JavaScript numbers that carry money or fill data are modelled as
  rationals; integer ids and quantities as Nat and Int.
- A field that may be absent or undefined is an Option.
- The JavaScript truthiness test of the fall-back operator x || d is
  modelled by the jsOr helpers (0 and the empty string are falsy).
- Network calls are suspension points: each engine operation takes the
  gateway response it awaited as an explicit Except argument and returns
  the new state together with the list of gateway calls it issued and the
  alerts it showed.
- The table re-render (sorting for display, DOM writes) only permutes the
  array for presentation and touches no order field; the store model keeps
  the collection unsorted, as the spec treats display ordering separately.
-/

inductive OrderStatus where
  | pending
  | processing
  | canceling
  | executed
  | canceled
  | rejected
deriving DecidableEq, Repr

/-- Order record as the module reads and writes it. -/
structure Order where
  id : Nat
  status : OrderStatus
  quantity : Option Int
  premium : Option ℚ
  avg_fill_price : Option ℚ
  commission : Option ℚ
  ib_order_id : Option String
  ib_status : Option String
  filled : Option ℚ
  remaining : Option ℚ
  timestamp : Option Int
  executed : Bool
deriving DecidableEq, Repr

/-- Partial record delivered by the gateway status check; the spread
merge in checkOrdersStatus overwrites exactly the fields present. -/
structure OrderFragment where
  id : Nat
  status : Option OrderStatus
  quantity : Option Int
  premium : Option ℚ
  avg_fill_price : Option ℚ
  commission : Option ℚ
  ib_order_id : Option String
  ib_status : Option String
  filled : Option ℚ
  remaining : Option ℚ
  timestamp : Option Int
deriving DecidableEq, Repr

/-- JavaScript fall-back a || d for integers: 0 and absent are falsy. -/
def jsOrI (a : Option Int) (d : Int) : Int :=
  match a with
  | some v => if v = 0 then d else v
  | none => d

/-- JavaScript fall-back a || d for rationals: 0 and absent are falsy. -/
def jsOrQ (a : Option ℚ) (d : ℚ) : ℚ :=
  match a with
  | some v => if v = 0 then d else v
  | none => d

/-- JavaScript fall-back a || d for strings: the empty string is falsy. -/
def jsOrStr (a : Option String) (d : String) : String :=
  match a with
  | some v => if v = "" then d else v
  | none => d

/-- JavaScript truthiness of an optional rational field. -/
def jsTruthyQ (a : Option ℚ) : Bool :=
  match a with
  | some v => v != 0
  | none => false

/-- JavaScript truthiness of an optional string field. -/
def jsTruthyStr (a : Option String) : Bool :=
  match a with
  | some v => v != ""
  | none => false

/-- pendingOrdersData.find, matching on the order id. -/
def findById (orders : List Order) (oid : Nat) : Option Order :=
  orders.find? (fun o => o.id == oid)

/-- findIndex followed by an in-place update of the first order whose id
matches; the list is unchanged when no order matches. -/
def setFirstById : List Order → Nat → (Order → Order) → List Order
  | [], _, _ => []
  | o :: rest, oid, f =>
      if o.id = oid then f o :: rest else o :: setFirstById rest oid f

/-- Field-wise spread: a field the fragment carries overwrites, a field
it does not carry is kept from the existing order. -/
def mergeOpt {α : Type} (f : Option α) (o : Option α) : Option α :=
  match f with
  | some v => some v
  | none => o

/-- Spread merge of one update fragment into an order, as in
pendingOrdersData[orderIndex] = { ...old, ...updatedOrder }: every field
the fragment carries overwrites, every absent field is kept. -/
def applyFragment (o : Order) (f : OrderFragment) : Order :=
  { id := f.id
    status := f.status.getD o.status
    quantity := mergeOpt f.quantity o.quantity
    premium := mergeOpt f.premium o.premium
    avg_fill_price := mergeOpt f.avg_fill_price o.avg_fill_price
    commission := mergeOpt f.commission o.commission
    ib_order_id := mergeOpt f.ib_order_id o.ib_order_id
    ib_status := mergeOpt f.ib_status o.ib_status
    filled := mergeOpt f.filled o.filled
    remaining := mergeOpt f.remaining o.remaining
    timestamp := mergeOpt f.timestamp o.timestamp
    executed := o.executed }

/-- Merge one fragment into the collection: the first order with a
matching id is overwritten field-wise, a fragment with no match is a
no-op (the source only logs it). -/
def mergeFragment : List Order → OrderFragment → List Order
  | [], _ => []
  | o :: rest, f =>
      if o.id = f.id then applyFragment o f :: rest
      else o :: mergeFragment rest f

/-- Sequential merge of the updated_orders list, also accumulating the
orderWasExecuted flag: a fragment flags it when the matching local order
is not yet executed and the incoming status is executed. -/
def mergeFragmentsFlag : List Order → List OrderFragment → List Order × Bool
  | orders, [] => (orders, false)
  | orders, f :: rest =>
      let flagHere :=
        match findById orders f.id with
        | some o => decide (o.status ≠ OrderStatus.executed) &&
            decide (f.status = some OrderStatus.executed)
        | none => false
      let next := mergeFragmentsFlag (mergeFragment orders f) rest
      (next.1, flagHere || next.2)

/-- pendingOrdersData.some with the transient-status test of
checkOrdersStatus: status in processing or canceling. -/
def isTransient (s : OrderStatus) : Bool :=
  s == OrderStatus.processing || s == OrderStatus.canceling

/-- hasTransient over the pending collection. -/
def hasTransient (orders : List Order) : Bool :=
  orders.any (fun o => isTransient o.status)

/-- Scheduler state: the nullable autoRefreshTimer handle, a fresh-id
source standing for setInterval, and the intervals currently live in the
runtime. -/
structure SchedState where
  autoRefreshTimer : Option Nat
  nextId : Nat
  activeTimers : List Nat
deriving DecidableEq, Repr

/-- startAutoRefresh: a no-op while a timer handle is held, otherwise a
new interval is created and its handle stored. -/
def startAutoRefresh (s : SchedState) : SchedState :=
  match s.autoRefreshTimer with
  | some _ => s
  | none =>
      { autoRefreshTimer := some s.nextId
        nextId := s.nextId + 1
        activeTimers := s.nextId :: s.activeTimers }

/-- stopAutoRefresh: clearInterval on the held handle and null it out; a
no-op when no handle is held. -/
def stopAutoRefresh (s : SchedState) : SchedState :=
  match s.autoRefreshTimer with
  | some t =>
      { autoRefreshTimer := none
        nextId := s.nextId
        activeTimers := s.activeTimers.erase t }
  | none => s

/-- Gateway requests the engine can issue, recorded so that theorems can
state which network calls an operation makes. -/
inductive GatewayCall where
  | executeOrder (oid : Nat)
  | cancelOrder (oid : Nat)
  | checkOrderStatus
  | fetchOrders (includeExecuted : Bool)
  | updateQuantity (oid : Nat) (qty : Int)
deriving DecidableEq, Repr

/-- Kind of showAlert notification an operation produced. -/
inductive AlertKind where
  | success
  | danger
deriving DecidableEq, Repr

/-- execution_details block of a successful execute response. -/
structure ExecutionDetails where
  ib_order_id : Option String
  ib_status : Option String
  filled : Option ℚ
  remaining : Option ℚ
  avg_fill_price : Option ℚ
deriving DecidableEq, Repr

/-- Body of a successful execute response. -/
structure ExecResult where
  ib_order_id : Option String
  execution_details : Option ExecutionDetails
deriving DecidableEq, Repr

/-- Body of a successful cancel response. -/
structure CancelResult where
  ib_status : Option String
deriving DecidableEq, Repr

/-- Body of a successful checkOrderStatus response. -/
structure PollResult where
  success : Bool
  updated_orders : List OrderFragment
deriving DecidableEq, Repr

/-- The mutable module state: the two collections and the timer. -/
structure EngineState where
  pendingOrdersData : List Order
  filledOrdersData : List Order
  sched : SchedState
deriving DecidableEq, Repr

/-- Result of one engine operation: the new state, the gateway calls
issued during it, and the alerts shown. -/
structure StepOutput where
  state : EngineState
  calls : List GatewayCall
  alerts : List AlertKind
deriving DecidableEq, Repr

/-- Local mutation executeOrderById performs on the matched order after a
successful gateway execute: status processing, executed flag, and the
IB fields from execution_details, or the documented fallback when the
response carries no execution_details. -/
def applyExecSuccess (r : ExecResult) (o : Order) : Order :=
  match r.execution_details with
  | some d =>
      { o with
        status := OrderStatus.processing
        executed := true
        ib_order_id := d.ib_order_id
        ib_status := d.ib_status
        filled := d.filled
        remaining := d.remaining
        avg_fill_price := d.avg_fill_price }
  | none =>
      { o with
        status := OrderStatus.processing
        executed := true
        ib_order_id := some (jsOrStr r.ib_order_id "Unknown")
        ib_status := some "Submitted" }

/-- executeOrderById: one execute request; on success the matched order
is updated and the scheduler started, on a rejected request the catch
block only shows a danger alert and the state is untouched. -/
def executeOrderById (st : EngineState) (oid : Nat)
    (resp : Except String ExecResult) : StepOutput :=
  match resp with
  | Except.error _ =>
      { state := st
        calls := [GatewayCall.executeOrder oid]
        alerts := [AlertKind.danger] }
  | Except.ok r =>
      { state :=
          { pendingOrdersData :=
              setFirstById st.pendingOrdersData oid (applyExecSuccess r)
            filledOrdersData := st.filledOrdersData
            sched := startAutoRefresh st.sched }
        calls := [GatewayCall.executeOrder oid]
        alerts := [AlertKind.success] }

/-- Local mutation cancelOrderById performs on the matched order after a
successful gateway cancel: canceling when the gateway reports
PendingCancel, canceled otherwise, copying a truthy ib_status. -/
def applyCancelSuccess (r : CancelResult) (o : Order) : Order :=
  let o1 :=
    { o with
      status :=
        if r.ib_status = some "PendingCancel" then OrderStatus.canceling
        else OrderStatus.canceled }
  if jsTruthyStr r.ib_status then { o1 with ib_status := r.ib_status } else o1

/-- cancelOrderById: one cancel request; same failure policy as
executeOrderById. -/
def cancelOrderById (st : EngineState) (oid : Nat)
    (resp : Except String CancelResult) : StepOutput :=
  match resp with
  | Except.error _ =>
      { state := st
        calls := [GatewayCall.cancelOrder oid]
        alerts := [AlertKind.danger] }
  | Except.ok r =>
      { state :=
          { pendingOrdersData :=
              setFirstById st.pendingOrdersData oid (applyCancelSuccess r)
            filledOrdersData := st.filledOrdersData
            sched := startAutoRefresh st.sched }
        calls := [GatewayCall.cancelOrder oid]
        alerts := [AlertKind.success] }

/-- Upstream filter loadFilledOrders applies to the fetched executed
orders: status executed and a truthy avg_fill_price. -/
def loadFilledFilter (raw : List Order) : List Order :=
  raw.filter (fun o =>
    decide (o.status = OrderStatus.executed) && jsTruthyQ o.avg_fill_price)

/-- checkOrdersStatus: polls only while some order is transient, merges
the returned fragments into the pending collection, reloads the filled
collection when a merge completed an execution, and stops the scheduler
once no transient order remains; with no transient order it issues no
call and only stops the scheduler. The poll response and the filled
reload response are the awaited network results. -/
def checkOrdersStatus (st : EngineState)
    (resp : Except String PollResult)
    (filledResp : Except String (List Order)) : StepOutput :=
  if hasTransient st.pendingOrdersData then
    match resp with
    | Except.error _ =>
        { state := st, calls := [GatewayCall.checkOrderStatus], alerts := [] }
    | Except.ok r =>
        if r.success && decide (0 < r.updated_orders.length) then
          let merged := mergeFragmentsFlag st.pendingOrdersData r.updated_orders
          let reload :
              List Order × List GatewayCall × List AlertKind :=
            if merged.2 then
              match filledResp with
              | Except.ok raw =>
                  (loadFilledFilter raw, [GatewayCall.fetchOrders true], [])
              | Except.error _ =>
                  (st.filledOrdersData, [GatewayCall.fetchOrders true],
                    [AlertKind.danger])
            else (st.filledOrdersData, [], [])
          let sched1 :=
            if hasTransient merged.1 then st.sched
            else stopAutoRefresh st.sched
          { state :=
              { pendingOrdersData := merged.1
                filledOrdersData := reload.1
                sched := sched1 }
            calls := GatewayCall.checkOrderStatus :: reload.2.1
            alerts := reload.2.2 }
        else
          { state := st, calls := [GatewayCall.checkOrderStatus], alerts := [] }
  else
    { state :=
        { pendingOrdersData := st.pendingOrdersData
          filledOrdersData := st.filledOrdersData
          sched := stopAutoRefresh st.sched }
      calls := []
      alerts := [] }

/-- Truncation toward zero, the effect of parseInt on the decimal
numeral a number input holds. -/
def jsTrunc (q : ℚ) : Int :=
  Int.tdiv q.num (q.den : Int)

/-- parseInt applied to the value string of the number input: a
non-numeric or empty value gives NaN (none), a decimal numeral parses as
its integer part, truncated toward zero. -/
def jsParseIntOfInput (input : Option ℚ) : Option Int :=
  match input with
  | none => none
  | some q => some (jsTrunc q)

/-- Result of the quantity input handler: the pending collection, the
persistence call made (when any), the value now shown in the input, and
the alerts shown. The displayed value is none when the raw input was
non-numeric and was left as typed. -/
structure QtyHandlerResult where
  store : List Order
  call : Option GatewayCall
  displayed : Option ℚ
  alerts : List AlertKind
deriving DecidableEq, Repr

/-- updateOrderQuantity: looks the order up, applies the local quantity
mutation before the network call, then issues the PUT; a non-2xx or
rejected request shows a danger alert but does not roll the local
mutation back; an absent order is only logged. -/
def updateOrderQuantity (store : List Order) (oid : Nat) (quantity : Int)
    (resp : Except String Unit) : List Order × Option GatewayCall × List AlertKind :=
  match findById store oid with
  | none => (store, none, [])
  | some _ =>
      let store1 := setFirstById store oid (fun o => { o with quantity := some quantity })
      match resp with
      | Except.ok _ => (store1, some (GatewayCall.updateQuantity oid quantity), [AlertKind.success])
      | Except.error _ => (store1, some (GatewayCall.updateQuantity oid quantity), [AlertKind.danger])

/-- Change and blur handler of the quantity input: parseInt the value;
when it is a number greater than zero, delegate to updateOrderQuantity;
otherwise revert the displayed value to the stored quantity (default 1)
of the matching order, without any network call. -/
def handleQuantityInputChange (store : List Order) (oid : Nat)
    (input : Option ℚ) (resp : Except String Unit) : QtyHandlerResult :=
  match jsParseIntOfInput input with
  | some n =>
      if 0 < n then
        let r := updateOrderQuantity store oid n resp
        { store := r.1, call := r.2.1, displayed := input, alerts := r.2.2 }
      else
        { store := store
          call := none
          displayed :=
            match findById store oid with
            | some o => some ((jsOrI o.quantity 1 : Int) : ℚ)
            | none => input
          alerts := [] }
  | none =>
      { store := store
        call := none
        displayed :=
          match findById store oid with
          | some o => some ((jsOrI o.quantity 1 : Int) : ℚ)
          | none => input
        alerts := [] }

/-- Weekly earnings summary as written to the three display elements. -/
structure WeeklySummary where
  count : Nat
  totalEarnings : ℚ
  averagePremium : ℚ
deriving DecidableEq, Repr

/-- Per-order net premium of the filled table:
(avg_fill_price || premium || 0) * 100 * (quantity || 1) - (commission || 0). -/
def netPremium (o : Order) : ℚ :=
  let fillPrice := jsOrQ o.avg_fill_price (jsOrQ o.premium 0)
  let quantity := jsOrI o.quantity 1
  let commission := jsOrQ o.commission 0
  fillPrice * 100 * (quantity : ℚ) - commission

/-- The weeklyOrders filter: executed and within the current week. The
wall-clock dependent isWithinCurrentWeek test on
(order.timestamp || order.created_at) is abstracted as the wk predicate. -/
def weeklyOrders (wk : Order → Bool) (filled : List Order) : List Order :=
  filled.filter (fun o => decide (o.status = OrderStatus.executed) && wk o)

/-- Accumulation of totalEarnings over the rendering loop: every order of
the filled collection within the current week adds its net premium. -/
def weeklyTotalEarnings (wk : Order → Bool) (filled : List Order) : ℚ :=
  filled.foldl (fun acc o => if wk o then acc + netPremium o else acc) 0

/-- updateWeeklyEarningsSummary: count, total and average (0 on an empty
weekly subset) as written to the display. -/
def updateWeeklyEarningsSummary (weeklyOrdersArg : List Order)
    (totalEarnings : ℚ) : WeeklySummary :=
  { count := weeklyOrdersArg.length
    totalEarnings := totalEarnings
    averagePremium :=
      if 0 < weeklyOrdersArg.length then totalEarnings / (weeklyOrdersArg.length : ℚ)
      else 0 }

/-- updateFilledOrdersTable restricted to its summary effect: with an
empty filled collection the function returns right after rendering the
empty-table row, leaving the previously displayed summary untouched;
otherwise it recomputes the summary from the weekly subset. -/
def updateFilledOrdersTable (wk : Order → Bool) (filled : List Order)
    (displayed : WeeklySummary) : WeeklySummary :=
  if filled.length = 0 then displayed
  else
    updateWeeklyEarningsSummary (weeklyOrders wk filled)
      (weeklyTotalEarnings wk filled)

/-- Digit counting worker, structurally recursive on a fuel bound so
that concrete instances evaluate inside the kernel. -/
def digitCountAux : Nat → Nat → Nat
  | 0, _ => 1
  | fuel + 1, n => if n < 10 then 1 else digitCountAux fuel (n / 10) + 1

/-- Number of decimal digits of a natural number, the length of its
numeral. -/
def digitCount (n : Nat) : Nat :=
  digitCountAux n n

/-- Length of dateString.toString() for an integer timestamp: its digit
count plus one for a leading minus sign. -/
def jsNumStrLen (n : Int) : Nat :=
  (if n < 0 then 1 else 0) + digitCount n.natAbs

/-- Timestamp argument of formatDate on its numeric branch: either a
number or a numeric string (carrying the parsed value and the length of
the string). -/
inductive TsInput where
  | num (n : Int)
  | numStr (n : Int) (len : Nat)
deriving DecidableEq, Repr

/-- The seconds-to-milliseconds heuristic of formatDate: a value whose
string form has at most 10 characters is taken as seconds and scaled by
1000, a longer one is taken as milliseconds. -/
def resolvedTimestamp (input : TsInput) : Int :=
  match input with
  | TsInput.num n => n * (if jsNumStrLen n ≤ 10 then 1000 else 1)
  | TsInput.numStr n len => n * (if len ≤ 10 then 1000 else 1)

/-- Rendering outcome of formatDate: the empty no-date string, or a
locale rendering of the resolved millisecond instant. -/
inductive DateDisplay where
  | empty
  | shown (tsMillis : Int)
deriving DecidableEq, Repr

/-- formatDate on the numeric branch: a falsy argument (the number 0)
gives the empty string at once; otherwise the parsed value is scaled by
the 10-character heuristic and an instant under 86400000 ms from the
epoch renders empty instead of a 1970 date. -/
def formatDate (input : TsInput) : DateDisplay :=
  match input with
  | TsInput.num n =>
      if n = 0 then DateDisplay.empty
      else
        let timestamp := resolvedTimestamp (TsInput.num n)
        if timestamp < 86400000 then DateDisplay.empty
        else DateDisplay.shown timestamp
  | TsInput.numStr n len =>
      let timestamp := resolvedTimestamp (TsInput.numStr n len)
      if timestamp < 86400000 then DateDisplay.empty
      else DateDisplay.shown timestamp

/-- One user-visible operation of the reconciliation engine, with the
gateway responses the operation awaited. -/
inductive Op where
  | execute (oid : Nat) (resp : Except String ExecResult)
  | cancel (oid : Nat) (resp : Except String CancelResult)
  | poll (resp : Except String PollResult) (filledResp : Except String (List Order))
  | updateQty (oid : Nat) (input : Option ℚ) (resp : Except String Unit)

/-- State transition of one operation. -/
def applyOp (st : EngineState) : Op → EngineState
  | Op.execute oid resp => (executeOrderById st oid resp).state
  | Op.cancel oid resp => (cancelOrderById st oid resp).state
  | Op.poll resp filledResp => (checkOrdersStatus st resp filledResp).state
  | Op.updateQty oid input resp =>
      { pendingOrdersData :=
          (handleQuantityInputChange st.pendingOrdersData oid input resp).store
        filledOrdersData := st.filledOrdersData
        sched := st.sched }

lemma getD_self_idem {α : Type} (a : Option α) (b : α) :
    a.getD (a.getD b) = a.getD b := by
  cases a <;> rfl

lemma mergeOpt_idem {α : Type} (a b : Option α) :
    mergeOpt a (mergeOpt a b) = mergeOpt a b := by
  cases a <;> rfl

lemma applyFragment_id_eq (o : Order) (f : OrderFragment) :
    (applyFragment o f).id = f.id := rfl

lemma applyFragment_idem (o : Order) (f : OrderFragment) :
    applyFragment (applyFragment o f) f = applyFragment o f := by
  simp [applyFragment, mergeOpt_idem, getD_self_idem]

/-- Claim C4: the status-check merge of a single update fragment is
idempotent on the order collection; merging the same fragment a second
time changes nothing. -/
theorem mergeFragment_idempotent (orders : List Order) (f : OrderFragment) :
    mergeFragment (mergeFragment orders f) f = mergeFragment orders f := by
  induction orders with
  | nil => rfl
  | cons o rest ih =>
      by_cases h : o.id = f.id
      · simp [mergeFragment, h, applyFragment_id_eq, applyFragment_idem]
      · simp [mergeFragment, h, ih]

/-- Claim C6: hasTransient is false exactly when every order in the
collection carries one of the four non-transient statuses. -/
theorem hasTransient_false_iff (orders : List Order) :
    hasTransient orders = false ↔
      ∀ o ∈ orders,
        o.status = OrderStatus.pending ∨ o.status = OrderStatus.executed ∨
        o.status = OrderStatus.canceled ∨ o.status = OrderStatus.rejected := by
  rw [hasTransient, List.any_eq_false]
  constructor
  · intro h o ho
    have ht := h o ho
    cases hs : o.status <;> simp [isTransient, hs] at ht ⊢
  · intro h o ho
    rcases h o ho with h1 | h1 | h1 | h1 <;> simp [isTransient, h1]

/-- Claim C5: a second startAutoRefresh while a timer is active is a
no-op, starting twice from an idle scheduler leaves exactly one active
timer, and stopAutoRefresh with no held handle is a no-op. -/
theorem scheduler_single_timer (s : SchedState) :
    startAutoRefresh (startAutoRefresh s) = startAutoRefresh s ∧
    (s.autoRefreshTimer = none → s.activeTimers = [] →
      (startAutoRefresh (startAutoRefresh s)).activeTimers.length = 1) ∧
    (s.autoRefreshTimer = none → stopAutoRefresh s = s) := by
  refine ⟨?_, ?_, ?_⟩
  · cases h : s.autoRefreshTimer <;> simp [startAutoRefresh, h]
  · intro h1 h2
    simp [startAutoRefresh, h1, h2]
  · intro h1
    simp [stopAutoRefresh, h1]

/-- Claim C5 witness at the idle scheduler. -/
theorem scheduler_single_timer_witness :
    (startAutoRefresh (startAutoRefresh ⟨none, 0, []⟩)).activeTimers.length = 1 ∧
    stopAutoRefresh ⟨none, 0, []⟩ = ⟨none, 0, []⟩ :=
  ⟨(scheduler_single_timer ⟨none, 0, []⟩).2.1 rfl rfl,
   (scheduler_single_timer ⟨none, 0, []⟩).2.2 rfl⟩

/-- Claim C7: a rejected execute request leaves the whole engine state
untouched, shows exactly one danger alert, and issues exactly the one
execute call, with no retry. -/
theorem executeOrder_failure_unchanged (st : EngineState) (oid : Nat)
    (msg : String) :
    executeOrderById st oid (Except.error msg) =
      { state := st
        calls := [GatewayCall.executeOrder oid]
        alerts := [AlertKind.danger] } := rfl

/-- Claim C9: a numeric timestamp resolving to an instant under 86400000
milliseconds from the epoch renders as the empty no-date string. -/
theorem formatDate_sentinel_empty (input : TsInput)
    (h : resolvedTimestamp input < 86400000) :
    formatDate input = DateDisplay.empty := by
  cases input with
  | num n =>
      by_cases h0 : n = 0
      · simp [formatDate, h0]
      · simp [formatDate, h0, h]
  | numStr n len => simp [formatDate, h]

/-- Claim C9 witness at the zero timestamp and at 86399 seconds. -/
theorem formatDate_sentinel_empty_witness :
    formatDate (TsInput.num 0) = DateDisplay.empty ∧
    formatDate (TsInput.num 86399) = DateDisplay.empty :=
  ⟨formatDate_sentinel_empty (TsInput.num 0) (by decide),
   formatDate_sentinel_empty (TsInput.num 86399) (by decide)⟩

/-- Claim C10: with no transient order the poll issues no gateway call,
leaves both collections unchanged, shows no alert, and stops the
scheduler. -/
theorem checkOrdersStatus_idle (st : EngineState)
    (resp : Except String PollResult) (filledResp : Except String (List Order))
    (h : hasTransient st.pendingOrdersData = false) :
    checkOrdersStatus st resp filledResp =
      { state :=
          { pendingOrdersData := st.pendingOrdersData
            filledOrdersData := st.filledOrdersData
            sched := stopAutoRefresh st.sched }
        calls := []
        alerts := [] } := by
  simp [checkOrdersStatus, h]

/-- Baseline concrete order used by the concrete instances below. -/
def baseOrder : Order :=
  { id := 1
    status := OrderStatus.pending
    quantity := some 1
    premium := none
    avg_fill_price := none
    commission := none
    ib_order_id := none
    ib_status := none
    filled := none
    remaining := none
    timestamp := some 1700000000
    executed := false }

/-- Concrete idle engine state: one pending order, a running timer. -/
def idleState : EngineState :=
  { pendingOrdersData := [baseOrder]
    filledOrdersData := []
    sched := ⟨some 7, 8, [7]⟩ }

/-- Claim C10 witness at the concrete idle state. -/
theorem checkOrdersStatus_idle_witness :
    checkOrdersStatus idleState (Except.ok ⟨true, []⟩) (Except.ok []) =
      { state :=
          { pendingOrdersData := idleState.pendingOrdersData
            filledOrdersData := idleState.filledOrdersData
            sched := stopAutoRefresh idleState.sched }
        calls := []
        alerts := [] } :=
  checkOrdersStatus_idle idleState (Except.ok ⟨true, []⟩) (Except.ok [])
    (by decide)

/-- Week predicate that holds for every order, for scenarios in which
all orders lie in the current week. -/
def wkAll : Order → Bool := fun _ => true

/-- First filled order of the §8 scenario: fillPrice 2.50, quantity 1,
commission 0.65. -/
def fillOrder1 : Order :=
  { baseOrder with
    id := 10
    status := OrderStatus.executed
    quantity := some 1
    avg_fill_price := some 2.5
    commission := some 0.65
    executed := true }

/-- Second filled order of the §8 scenario: fillPrice 1.10, quantity 2,
commission 0.65. -/
def fillOrder2 : Order :=
  { baseOrder with
    id := 11
    status := OrderStatus.executed
    quantity := some 2
    avg_fill_price := some 1.1
    commission := some 0.65
    executed := true }

/-- Claim C1 counterexample: on the stated inputs the code computes
netPremium 249.35 for the first order, not 184.35, and the summary does
not carry the stated total 403.70 or average 201.85. -/
theorem weekly_earnings_claimed_values_false :
    netPremium fillOrder1 ≠ 184.35 ∧
    (updateFilledOrdersTable wkAll [fillOrder1, fillOrder2] ⟨0, 0, 0⟩).totalEarnings ≠
      403.70 ∧
    (updateFilledOrdersTable wkAll [fillOrder1, fillOrder2] ⟨0, 0, 0⟩).averagePremium ≠
      201.85 := by
  refine ⟨?_, ?_, ?_⟩ <;>
    · simp [netPremium, updateFilledOrdersTable, updateWeeklyEarningsSummary,
        weeklyOrders, weeklyTotalEarnings, wkAll, fillOrder1, fillOrder2,
        baseOrder, jsOrQ, jsOrI]
      norm_num

/-- Claim C1 amended: for the two in-week executed orders the aggregator
computes netPremium 249.35 and 219.35, totalEarnings 468.70, count 2 and
averagePremium 234.35. -/
theorem weekly_earnings_values :
    netPremium fillOrder1 = 249.35 ∧
    netPremium fillOrder2 = 219.35 ∧
    updateFilledOrdersTable wkAll [fillOrder1, fillOrder2] ⟨0, 0, 0⟩ =
      { count := 2, totalEarnings := 468.70, averagePremium := 234.35 } := by
  refine ⟨?_, ?_, ?_⟩ <;>
    · simp [netPremium, updateFilledOrdersTable, updateWeeklyEarningsSummary,
        weeklyOrders, weeklyTotalEarnings, wkAll, fillOrder1, fillOrder2,
        baseOrder, jsOrQ, jsOrI]
      norm_num

/-- A stale weekly summary left on the display by an earlier render. -/
def staleSummary : WeeklySummary := ⟨5, 100, 20⟩

/-- Claim C3 counterexample: with an empty filled collection the update
routine returns before recomputing, so a previously displayed non-zero
summary persists instead of the zero triple. -/
theorem empty_filled_stale_summary :
    updateFilledOrdersTable wkAll [] staleSummary = staleSummary ∧
    staleSummary ≠ ⟨0, 0, 0⟩ := by
  refine ⟨rfl, ?_⟩
  intro h
  have h5 : staleSummary.count = 0 := by rw [h]
  simp [staleSummary] at h5

/-- Claim C3 amended: with an empty filled collection the update routine
leaves the displayed summary unchanged; the summary computation itself,
applied to the empty weekly subset, yields count 0, totalEarnings 0 and
averagePremium 0. -/
theorem empty_filled_summary (wk : Order → Bool) (displayed : WeeklySummary) :
    updateFilledOrdersTable wk [] displayed = displayed ∧
    updateWeeklyEarningsSummary (weeklyOrders wk []) (weeklyTotalEarnings wk []) =
      ⟨0, 0, 0⟩ := by
  constructor
  · rfl
  · simp [updateWeeklyEarningsSummary, weeklyOrders, weeklyTotalEarnings]

/-- Concrete pending order with stored quantity 4. -/
def qtyOrder : Order := { baseOrder with id := 1, quantity := some 4 }

/-- Claim C8 counterexample: the input 2.5 is not a positive integer,
yet parseInt truncates it to 2, the validation passes, the persistence
endpoint is called with quantity 2, the store is mutated, and the
displayed value stays 2.5 instead of reverting to the stored 4. -/
theorem quantity_noninteger_not_rejected :
    (2.5 : ℚ).den ≠ 1 ∧
    (handleQuantityInputChange [qtyOrder] 1 (some 2.5) (Except.ok ())).call =
      some (GatewayCall.updateQuantity 1 2) ∧
    (handleQuantityInputChange [qtyOrder] 1 (some 2.5) (Except.ok ())).displayed =
      some 2.5 ∧
    (handleQuantityInputChange [qtyOrder] 1 (some 2.5) (Except.ok ())).store =
      [{ qtyOrder with quantity := some 2 }] := by
  have ht : jsParseIntOfInput (some 2.5) = some 2 := by
    simp only [jsParseIntOfInput, jsTrunc, Option.some.injEq]
    norm_num
    decide
  refine ⟨by norm_num, ?_, ?_, ?_⟩ <;>
    simp [handleQuantityInputChange, ht, updateOrderQuantity, findById,
      setFirstById, qtyOrder, baseOrder]

/-- Claim C8 amended: an input that parseInt maps to NaN or to a
non-positive integer (0 and -3 included) makes no network call, leaves
the store unchanged, shows no alert, and reverts the displayed value to
the stored quantity of the matching order; a non-integer input with a
positive integer part escapes this validation (see the counterexample)
and is instead truncated and persisted. -/
theorem quantity_invalid_input_rejected (store : List Order) (oid : Nat)
    (input : Option ℚ) (resp : Except String Unit)
    (h : ∀ n, jsParseIntOfInput input = some n → n ≤ 0) :
    (handleQuantityInputChange store oid input resp).call = none ∧
    (handleQuantityInputChange store oid input resp).store = store ∧
    (handleQuantityInputChange store oid input resp).alerts = [] ∧
    ∀ o, findById store oid = some o →
      (handleQuantityInputChange store oid input resp).displayed =
        some ((jsOrI o.quantity 1 : Int) : ℚ) := by
  cases hpi : jsParseIntOfInput input with
  | none =>
      refine ⟨?_, ?_, ?_, ?_⟩
      · simp [handleQuantityInputChange, hpi]
      · simp [handleQuantityInputChange, hpi]
      · simp [handleQuantityInputChange, hpi]
      · intro o hf
        simp [handleQuantityInputChange, hpi, hf]
  | some n =>
      have hn : ¬ 0 < n := by
        have := h n hpi
        omega
      refine ⟨?_, ?_, ?_, ?_⟩
      · simp [handleQuantityInputChange, hpi, hn]
      · simp [handleQuantityInputChange, hpi, hn]
      · simp [handleQuantityInputChange, hpi, hn]
      · intro o hf
        simp [handleQuantityInputChange, hpi, hn, hf]

/-- Claim C8 witness: the input 0 is rejected with no call and the
display reverts to the stored quantity 4. -/
theorem quantity_invalid_input_rejected_witness :
    (handleQuantityInputChange [qtyOrder] 1 (some 0) (Except.ok ())).call = none ∧
    (handleQuantityInputChange [qtyOrder] 1 (some 0) (Except.ok ())).displayed =
      some 4 := by
  have h0 : jsParseIntOfInput (some 0) = some 0 := by
    simp only [jsParseIntOfInput, jsTrunc, Option.some.injEq]
    norm_num
  have h := quantity_invalid_input_rejected [qtyOrder] 1 (some 0) (Except.ok ())
    (by
      intro n hn
      rw [h0] at hn
      injection hn with hn1
      omega)
  refine ⟨h.1, ?_⟩
  have hd := h.2.2.2 qtyOrder (by simp [findById, qtyOrder, baseOrder])
  rw [hd]
  norm_num [qtyOrder, baseOrder, jsOrI]

lemma setFirstById_getElem? (orders : List Order) (oid : Nat)
    (f : Order → Order) (i : Nat) (o' : Order)
    (h : (setFirstById orders oid f)[i]? = some o') :
    orders[i]? = some o' ∨ ∃ o, orders[i]? = some o ∧ o' = f o := by
  induction orders generalizing i with
  | nil => simp [setFirstById] at h
  | cons a rest ih =>
      rw [setFirstById] at h
      by_cases ha : a.id = oid
      · rw [if_pos ha] at h
        cases i with
        | zero =>
            right
            exact ⟨a, by simp, by simpa using h.symm⟩
        | succ j =>
            left
            simpa using h
      · rw [if_neg ha] at h
        cases i with
        | zero =>
            left
            simpa using h
        | succ j =>
            have h1 : (setFirstById rest oid f)[j]? = some o' := by simpa using h
            rcases ih j h1 with h2 | ⟨o, ho, he⟩
            · left
              simpa using h2
            · right
              exact ⟨o, by simpa using ho, he⟩

lemma mergeFragment_getElem? (orders : List Order) (g : OrderFragment)
    (i : Nat) (o' : Order)
    (h : (mergeFragment orders g)[i]? = some o') :
    orders[i]? = some o' ∨ ∃ o, orders[i]? = some o ∧ o' = applyFragment o g := by
  induction orders generalizing i with
  | nil => simp [mergeFragment] at h
  | cons a rest ih =>
      rw [mergeFragment] at h
      by_cases ha : a.id = g.id
      · rw [if_pos ha] at h
        cases i with
        | zero =>
            right
            exact ⟨a, by simp, by simpa using h.symm⟩
        | succ j =>
            left
            simpa using h
      · rw [if_neg ha] at h
        cases i with
        | zero =>
            left
            simpa using h
        | succ j =>
            have h1 : (mergeFragment rest g)[j]? = some o' := by simpa using h
            rcases ih j h1 with h2 | ⟨o, ho, he⟩
            · left
              simpa using h2
            · right
              exact ⟨o, by simpa using ho, he⟩

lemma applyFragment_status_none (o : Order) (g : OrderFragment)
    (hg : g.status = none) : (applyFragment o g).status = o.status := by
  simp [applyFragment, hg]

lemma applyFragment_status_some (o : Order) (g : OrderFragment) (s : OrderStatus)
    (hg : g.status = some s) : (applyFragment o g).status = s := by
  simp [applyFragment, hg]

lemma mergeFragmentsFlag_fst_pending :
    ∀ (frags : List OrderFragment) (orders : List Order) (i : Nat) (o' : Order),
      (∀ g ∈ frags, g.status ≠ some OrderStatus.pending) →
      (mergeFragmentsFlag orders frags).1[i]? = some o' →
      o'.status = OrderStatus.pending →
      ∃ o, orders[i]? = some o ∧ o.status = OrderStatus.pending := by
  intro frags
  induction frags with
  | nil =>
      intro orders i o' hf h hp
      exact ⟨o', by simpa [mergeFragmentsFlag] using h, hp⟩
  | cons g rest ih =>
      intro orders i o' hf h hp
      have h1 : (mergeFragmentsFlag (mergeFragment orders g) rest).1[i]? = some o' := by
        simpa [mergeFragmentsFlag] using h
      obtain ⟨o1, ho1, hp1⟩ := ih (mergeFragment orders g) i o'
        (fun x hx => hf x (List.mem_cons_of_mem g hx)) h1 hp
      rcases mergeFragment_getElem? orders g i o1 ho1 with h2 | ⟨o0, ho0, he⟩
      · exact ⟨o1, h2, hp1⟩
      · cases hgs : g.status with
        | none =>
            refine ⟨o0, ho0, ?_⟩
            rw [he, applyFragment_status_none o0 g hgs] at hp1
            exact hp1
        | some s =>
            exfalso
            rw [he, applyFragment_status_some o0 g s hgs] at hp1
            exact hf g (List.mem_cons_self g rest) (by rw [hgs, hp1])

lemma applyExecSuccess_status (r : ExecResult) (o : Order) :
    (applyExecSuccess r o).status = OrderStatus.processing := by
  cases hd : r.execution_details <;> simp [applyExecSuccess, hd]

lemma applyCancelSuccess_status (r : CancelResult) (o : Order) :
    (applyCancelSuccess r o).status =
      (if r.ib_status = some "PendingCancel" then OrderStatus.canceling
       else OrderStatus.canceled) := by
  by_cases hc : jsTruthyStr r.ib_status = true <;> simp [applyCancelSuccess, hc]

/-- The restriction under which the poll merge cannot move a status
backwards to pending: incoming fragments never carry the pending status.
Trivially satisfied by every other operation. -/
def opFragsNoPending : Op → Prop
  | Op.poll (Except.ok r) _ =>
      ∀ g ∈ r.updated_orders, g.status ≠ some OrderStatus.pending
  | _ => True

/-- Claim C2 amended: across execute, cancel, poll-status merge and
quantity update, an order whose status is pending after the operation
was already pending before it, provided poll fragments never carry the
pending status. The unrestricted claim fails: the poll merge copies any
incoming status verbatim (see the counterexample), so forward-only
motion along the state machine is not enforced by the code. -/
theorem status_pending_not_reintroduced (st : EngineState) (op : Op)
    (hop : opFragsNoPending op) (i : Nat) (o o' : Order)
    (hb : st.pendingOrdersData[i]? = some o)
    (ha : (applyOp st op).pendingOrdersData[i]? = some o')
    (hp : o'.status = OrderStatus.pending) :
    o.status = OrderStatus.pending := by
  cases op with
  | execute oid resp =>
      cases resp with
      | error msg =>
          simp only [applyOp, executeOrderById] at ha
          rw [hb] at ha
          injection ha with he
          rw [he]
          exact hp
      | ok r =>
          simp only [applyOp, executeOrderById] at ha
          rcases setFirstById_getElem? st.pendingOrdersData oid
              (applyExecSuccess r) i o' ha with h1 | ⟨o0, ho0, he⟩
          · rw [hb] at h1
            injection h1 with he
            rw [he]
            exact hp
          · exfalso
            rw [he, applyExecSuccess_status] at hp
            exact OrderStatus.noConfusion hp
  | cancel oid resp =>
      cases resp with
      | error msg =>
          simp only [applyOp, cancelOrderById] at ha
          rw [hb] at ha
          injection ha with he
          rw [he]
          exact hp
      | ok r =>
          simp only [applyOp, cancelOrderById] at ha
          rcases setFirstById_getElem? st.pendingOrdersData oid
              (applyCancelSuccess r) i o' ha with h1 | ⟨o0, ho0, he⟩
          · rw [hb] at h1
            injection h1 with he
            rw [he]
            exact hp
          · exfalso
            rw [he, applyCancelSuccess_status] at hp
            by_cases hc : r.ib_status = some "PendingCancel"
            · rw [if_pos hc] at hp
              exact OrderStatus.noConfusion hp
            · rw [if_neg hc] at hp
              exact OrderStatus.noConfusion hp
  | poll resp filledResp =>
      by_cases ht : hasTransient st.pendingOrdersData
      · cases resp with
        | error msg =>
            simp only [applyOp, checkOrdersStatus, ht, if_true] at ha
            rw [hb] at ha
            injection ha with he
            rw [he]
            exact hp
        | ok r =>
            by_cases hg : (r.success && decide (0 < r.updated_orders.length)) = true
            · simp only [applyOp, checkOrdersStatus, ht, if_true, hg] at ha
              obtain ⟨o0, ho0, hp0⟩ := mergeFragmentsFlag_fst_pending
                r.updated_orders st.pendingOrdersData i o' hop ha hp
              rw [hb] at ho0
              injection ho0 with he
              rw [he]
              exact hp0
            · rw [Bool.not_eq_true] at hg
              simp [applyOp, checkOrdersStatus, ht, hg] at ha
              rw [hb] at ha
              injection ha with he
              rw [he]
              exact hp
      · rw [Bool.not_eq_true] at ht
        cases resp with
        | error msg =>
            simp [applyOp, checkOrdersStatus, ht] at ha
            rw [hb] at ha
            injection ha with he
            rw [he]
            exact hp
        | ok r =>
            simp [applyOp, checkOrdersStatus, ht] at ha
            rw [hb] at ha
            injection ha with he
            rw [he]
            exact hp
  | updateQty oid input resp =>
      simp only [applyOp] at ha
      cases hpi : jsParseIntOfInput input with
      | none =>
          simp only [handleQuantityInputChange, hpi] at ha
          rw [hb] at ha
          injection ha with he
          rw [he]
          exact hp
      | some n =>
          by_cases hn : 0 < n
          · cases hfind : findById st.pendingOrdersData oid with
            | none =>
                simp only [handleQuantityInputChange, hpi, hn, if_true,
                  updateOrderQuantity, hfind] at ha
                rw [hb] at ha
                injection ha with he
                rw [he]
                exact hp
            | some o2 =>
                cases resp with
                | ok u =>
                    simp only [handleQuantityInputChange, hpi, hn, if_true,
                      updateOrderQuantity, hfind] at ha
                    rcases setFirstById_getElem? st.pendingOrdersData oid
                        (fun o3 => { o3 with quantity := some n }) i o' ha with
                      h1 | ⟨o0, ho0, he⟩
                    · rw [hb] at h1
                      injection h1 with he
                      rw [he]
                      exact hp
                    · rw [hb] at ho0
                      injection ho0 with he2
                      rw [he2]
                      rw [he] at hp
                      exact hp
                | error msg =>
                    simp only [handleQuantityInputChange, hpi, hn, if_true,
                      updateOrderQuantity, hfind] at ha
                    rcases setFirstById_getElem? st.pendingOrdersData oid
                        (fun o3 => { o3 with quantity := some n }) i o' ha with
                      h1 | ⟨o0, ho0, he⟩
                    · rw [hb] at h1
                      injection h1 with he
                      rw [he]
                      exact hp
                    · rw [hb] at ho0
                      injection ho0 with he2
                      rw [he2]
                      rw [he] at hp
                      exact hp
          · simp only [handleQuantityInputChange, hpi, hn, if_false] at ha
            rw [hb] at ha
            injection ha with he
            rw [he]
            exact hp

/-- Concrete processing order regressed by a pending fragment. -/
def regressOrder : Order :=
  { baseOrder with id := 1, status := OrderStatus.processing, executed := true }

/-- Fragment carrying status pending for order 1. -/
def regressFragment : OrderFragment :=
  { id := 1
    status := some OrderStatus.pending
    quantity := none
    premium := none
    avg_fill_price := none
    commission := none
    ib_order_id := none
    ib_status := none
    filled := none
    remaining := none
    timestamp := none }

/-- Concrete state holding only the processing order. -/
def regressState : EngineState :=
  { pendingOrdersData := [regressOrder]
    filledOrdersData := []
    sched := ⟨none, 0, []⟩ }

/-- Claim C2 counterexample: a poll whose fragment carries status
pending moves the processing order back to pending, a backward
transition that reintroduces pending. -/
theorem status_regresses_to_pending :
    regressState.pendingOrdersData.map (fun o => o.status) =
      [OrderStatus.processing] ∧
    (applyOp regressState
        (Op.poll (Except.ok ⟨true, [regressFragment]⟩)
          (Except.ok []))).pendingOrdersData.map (fun o => o.status) =
      [OrderStatus.pending] :=
  ⟨rfl, rfl⟩

/-- Claim C2 witness: the amended theorem applied to a concrete
operation, an execute request that fails on a store holding one pending
order. -/
theorem status_pending_not_reintroduced_witness :
    baseOrder.status = OrderStatus.pending :=
  status_pending_not_reintroduced
    { pendingOrdersData := [baseOrder], filledOrdersData := [], sched := ⟨none, 0, []⟩ }
    (Op.execute 2 (Except.error "boom")) trivial 0 baseOrder baseOrder rfl rfl rfl
